import Mathlib

/-!
Verification of the hair-salon game's strand model, tool engine and physics
stepper.  The JavaScript source is embedded shallowly: JS numbers (IEEE
doubles) are idealised as exact rationals, `Math.random()` draws are an
arbitrary stream of rationals supplied as a parameter, and the transcendental
library calls (`Math.cos`, `Math.sin`, `Math.atan2`) are uninterpreted
function parameters.  Distance comparisons `calculateDistance(...) <= r` are
embedded as the equivalent squared comparison `dist^2 <= r^2` (valid for
`0 <= r`); the lemma `distWithin_iff_sqrt` below proves the equivalence with
the `Real.sqrt` form used in the specification.
-/

namespace HairSalon

/-! ### GameConfig (src/js/config.js) -/

namespace GameConfig

def canvasWidth : ℚ := 600
def canvasHeight : ℚ := 600

/-- Avatar head settings: `GameConfig.avatar`. -/
def avatarCenterX : ℚ := 305
def avatarCenterY : ℚ := 220
def avatarHairRadius : ℚ := 90

/-- Physics settings: `GameConfig.physics`. -/
def fallSpeedMin : ℚ := 2
def fallSpeedMax : ℚ := 4
def rotationSpeedMin : ℚ := -1/10
def rotationSpeedMax : ℚ := 1/10
def horizontalDriftMin : ℚ := -1/2
def horizontalDriftMax : ℚ := 1/2
def cleanupDistance : ℚ := 50

/-- Tool settings: `GameConfig.tools`. -/
def paintEffectRadius : ℚ := 30
def addHairStrandsPerClick : ℕ := 5
def combEffectRadius : ℚ := 50
def combInfluence : ℚ := 3/10
def shaveEffectRadius : ℚ := 15

end GameConfig

/-- Exact rational value of the IEEE-754 double `Math.PI`
(`884279719003555 / 2^48`). -/
def mathPI : ℚ := 884279719003555 / 281474976710656

/-! ### Utils (src/unnamed/part_004) -/

/-- Squared Euclidean distance between `(x1,y1)` and `(x2,y2)`.
`Utils.calculateDistance` returns the square root of this; every use in the
code compares the distance against a nonnegative radius, which is embedded as
the squared comparison below. -/
def calculateDistanceSq (x1 y1 x2 y2 : ℚ) : ℚ :=
  (x2 - x1) ^ 2 + (y2 - y1) ^ 2

/-- Embedding of the comparison `Utils.calculateDistance(x1,y1,x2,y2) <= r`
for a nonnegative radius `r`: both sides are nonnegative, so comparing
squares is equivalent (see `distWithin_iff_sqrt`). -/
def distWithin (x1 y1 x2 y2 r : ℚ) : Bool :=
  calculateDistanceSq x1 y1 x2 y2 ≤ r ^ 2

/-- Embedding of `Utils.randomBetween(min, max)` where `u` is the
`Math.random()` draw: `min + u * (max - min)`. -/
def randomBetween (min max u : ℚ) : ℚ :=
  min + u * (max - min)

/-- Embedding of `Utils.isInHairZone(x, y)`: distance from the configured
head centre is at most `hairRadius` and `y <= centerY` (top half). -/
def isInHairZone (x y : ℚ) : Bool :=
  distWithin x y GameConfig.avatarCenterX GameConfig.avatarCenterY
      GameConfig.avatarHairRadius
    && decide (y ≤ GameConfig.avatarCenterY)

/-! ### Data model -/

/-- Per-character hair style descriptor (`GameConfig.characters.*.hairStyle`).
The fields `volumeVariation` and `layerDepths` are read by the hair system;
`layerDepths` is guarded by `|| [1.0]` in the code, modelled by `Option`. -/
structure HairStyle where
  defaultColor : String
  strandLengthMin : ℚ
  strandLengthMax : ℚ
  generationStep : ℚ
  generationMaxRadius : ℚ
  strandsPerCircleBase : ℚ
  strandsPerCircleMultiplier : ℚ
  centerFillStrands : ℚ
  curliness : ℚ
  volumeMultiplier : ℚ
  wavePattern : String
  waveAmplitude : ℚ
  waveFrequency : ℚ
  layering : ℚ
  volumeVariation : ℚ
  layerDepths : Option (List ℚ)
  deriving DecidableEq

/-- Character profile (`GameConfig.characters.*`). -/
structure Character where
  hairCenterX : ℚ
  hairCenterY : ℚ
  hairRadius : ℚ
  hairStyle : HairStyle
  deriving DecidableEq

/-- Hair strand record as pushed by `HairSystem.addHairStrand`. -/
structure Strand where
  baseX : ℚ
  baseY : ℚ
  angle : ℚ
  length : ℚ
  color : String
  waveConfig : Option HairStyle
  layerDepth : ℚ
  deriving DecidableEq

/-- Resolution of `character.hairStyle.layerDepths || [1.0]`. -/
def layersOf (ch : Character) : List ℚ :=
  ch.hairStyle.layerDepths.getD [1]

/-! ### HairSystem tool operations (src/js/hair-system.js) -/

/-- Shave match test: `Utils.calculateDistance(strand.base, (x,y)) <=
GameConfig.tools.shave.effectRadius`. -/
def shaveMatched (x y : ℚ) (s : Strand) : Bool :=
  distWithin s.baseX s.baseY x y GameConfig.shaveEffectRadius

/-- Embedding of `HairSystem.shaveHairAtPosition(x, y)`.  The source iterates
`i` from the last index down to `0`, pushing a copy of each matched strand
onto `removedHair` and splicing it out of `this.hairStrands`; processing the
tail (higher indices) first and the head last is exactly that reverse-index
iteration.  Returns `(removedHair, remaining hairStrands)`. -/
def shaveHairAtPosition (hairStrands : List Strand) (x y : ℚ) :
    List Strand × List Strand :=
  match hairStrands with
  | [] => ([], [])
  | s :: rest =>
    if shaveMatched x y s then
      ((shaveHairAtPosition rest x y).1 ++ [s], (shaveHairAtPosition rest x y).2)
    else
      ((shaveHairAtPosition rest x y).1, s :: (shaveHairAtPosition rest x y).2)

/-- One strand built by an iteration of the loop in
`HairSystem.addHairAtPosition`; `r0`–`r4` are the five `Math.random()` draws
of that iteration, in source order (base angle, curliness variation, length,
layer pick, volume offset).  The character profiles ship no `layerDepths`
array, so the code's `layers[Math.floor(Math.random() * layers.length)]`
reads the defaulted `[1.0]`; out-of-range indexing (impossible for draws in
`[0,1)`) is modelled by `getD _ 1`. -/
def mkAddedStrand (ch : Character) (x y : ℚ) (color : String)
    (r0 r1 r2 r3 r4 : ℚ) : Strand :=
  let baseAngle := r0 * 2 * mathPI
  let angle := baseAngle + (r1 - 1/2) * ch.hairStyle.curliness
  let len := randomBetween ch.hairStyle.strandLengthMin
    ch.hairStyle.strandLengthMax r2
  let layers := ch.hairStyle.layerDepths.getD [1]
  let randomLayer := layers.getD (⌊r3 * (layers.length : ℚ)⌋).toNat 1
  let volumeOffset := (r4 - 1/2) * ch.hairStyle.volumeVariation * 5
  { baseX := x + volumeOffset
    baseY := y + volumeOffset * (1/2)
    angle := angle
    length := len
    color := color
    waveConfig := some ch.hairStyle
    layerDepth := randomLayer }

/-- Embedding of `HairSystem.addHairAtPosition(x, y, color, characterType)`.
Returns `(returned boolean, resulting hairStrands)`.  If the point is outside
the hair zone the method returns `false` before touching any state; otherwise
it pushes `GameConfig.tools.addHair.strandsPerClick` strands, strand `i`
consuming the five draws `rng (5*i) .. rng (5*i+4)`. -/
def addHairAtPosition (hairStrands : List Strand) (x y : ℚ) (color : String)
    (ch : Character) (rng : ℕ → ℚ) : Bool × List Strand :=
  if !isInHairZone x y then (false, hairStrands)
  else
    (true, hairStrands ++
      (List.range GameConfig.addHairStrandsPerClick).map fun i =>
        mkAddedStrand ch x y color
          (rng (5*i)) (rng (5*i+1)) (rng (5*i+2)) (rng (5*i+3)) (rng (5*i+4)))

/-- Per-strand comb nudge: `strand.angle += (combAngle - strand.angle) *
GameConfig.tools.comb.influence`. -/
def combStrandUpdate (combAngle : ℚ) (s : Strand) : Strand :=
  { s with angle := s.angle + (combAngle - s.angle) * GameConfig.combInfluence }

/-- Embedding of `HairSystem.combHairAtPosition(x, y, dx, dy)`; `atan2`
models `Math.atan2`.  Every strand whose base lies within the comb radius is
nudged toward `combAngle = atan2 dy dx`. -/
def combHairAtPosition (atan2 : ℚ → ℚ → ℚ) (hairStrands : List Strand)
    (x y dx dy : ℚ) : List Strand :=
  hairStrands.map fun s =>
    if distWithin s.baseX s.baseY x y GameConfig.combEffectRadius
    then combStrandUpdate (atan2 dy dx) s else s

/-- Repeated comb calls at the same point with the same movement delta. -/
def combIter (atan2 : ℚ → ℚ → ℚ) (x y dx dy : ℚ) (n : ℕ)
    (hairStrands : List Strand) : List Strand :=
  (fun l => combHairAtPosition atan2 l x y dx dy)^[n] hairStrands

/-- Iterated form of the per-strand nudge toward target `t`. -/
def nudgeIter (t : ℚ) (n : ℕ) (a : ℚ) : ℚ :=
  (fun b => b + (t - b) * GameConfig.combInfluence)^[n] a

/-- Resolution of the JS truthiness default `strand.layerDepth || 1.0` used
by `redrawAllHair` (a `layerDepth` of exactly `0` is falsy). -/
def layerDepthOrDefault (d : ℚ) : ℚ :=
  if d = 0 then 1 else d

/-- Embedding of `HairSystem.redrawAllHair()`: the sequence of strand draw
calls, i.e. a copy of the store sorted ascending by (defaulted) layer depth
(`sort((a,b) => (a.layerDepth||1) - (b.layerDepth||1))`). -/
def redrawAllHair (hairStrands : List Strand) : List Strand :=
  hairStrands.mergeSort fun a b =>
    decide (layerDepthOrDefault a.layerDepth ≤ layerDepthOrDefault b.layerDepth)

/-! ### Hair generation (HairSystem.generateHair) -/

/-- Volume zone descriptor from `generateHair`. -/
structure VolumeZone where
  offsetX : ℚ
  offsetY : ℚ
  multiplier : ℚ
  deriving DecidableEq

/-- The four volume zones hard-coded in `generateHair`. -/
def volumeZones : List VolumeZone :=
  [⟨0, 0, 1⟩, ⟨-10, -5, 7/10⟩, ⟨10, -5, 7/10⟩, ⟨0, -8, 4/5⟩]

/-- Radii visited by `for (let radius = 0; radius <= maxRadius *
zone.multiplier; radius += step)` for a positive `step` (the configured step
is `3`): `0, step, 2*step, …` up to the bound. -/
def radiusList (maxTimesMult step : ℚ) : List ℚ :=
  (List.range (⌊maxTimesMult / step⌋ + 1).toNat).map fun k => (k : ℚ) * step

/-- Strand count for one concentric circle:
`floor(max(base, floor(radius * multiplier * volumeMultiplier)) *
(zone.multiplier * layerDepth))`. -/
def strandsInCircleCount (ch : Character) (zone : VolumeZone)
    (layerDepth radius : ℚ) : ℕ :=
  let baseStrandsInCircle : ℚ :=
    max ch.hairStyle.strandsPerCircleBase
      ((⌊radius * ch.hairStyle.strandsPerCircleMultiplier *
          ch.hairStyle.volumeMultiplier⌋ : ℤ) : ℚ)
  (⌊baseStrandsInCircle * (zone.multiplier * layerDepth)⌋).toNat

/-- One ring strand of `generateHair`; `draw 0`–`draw 6` are the seven
`Math.random()` draws of the loop body in source order. -/
def ringStrand (ch : Character) (cosF sinF : ℚ → ℚ) (zone : VolumeZone)
    (layerDepth radius : ℚ) (i strandsInCircle : ℕ) (draw : ℕ → ℚ) : Strand :=
  let zoneCenterX := ch.hairCenterX + zone.offsetX
  let zoneCenterY := ch.hairCenterY + zone.offsetY
  let baseAngle := ((i : ℚ) / (strandsInCircle : ℚ)) * mathPI - mathPI
  let angleVariation := (draw 0 - 1/2) *
    (1/10 + (1 - layerDepth) * (2/10) + (1 - zone.multiplier) * (1/10))
  let radiusVariation := (draw 1 - 1/2) * (2 + (1 - layerDepth) * 3)
  let actualRadius := radius + radiusVariation
  let actualAngle := baseAngle + angleVariation
  let baseX := zoneCenterX + cosF actualAngle * actualRadius
  let baseY := zoneCenterY + sinF actualAngle * actualRadius
  let strandAngle := actualAngle + (draw 2 - 1/2) * (1/2 + ch.hairStyle.curliness)
  let layerLengthVariation := (1 - layerDepth) * (3/10)
  let len := randomBetween
    (ch.hairStyle.strandLengthMin + ch.hairStyle.strandLengthMin * layerLengthVariation)
    (ch.hairStyle.strandLengthMax + ch.hairStyle.strandLengthMax * layerLengthVariation)
    (draw 3)
  let volumeOffset := (draw 4 - 1/2) * ch.hairStyle.volumeVariation * 10
  let volumeX := baseX + volumeOffset + (draw 5 - 1/2) * (1 - zone.multiplier) * 5
  let volumeY := baseY + volumeOffset * (1/2) + (draw 6 - 1/2) * (1 - zone.multiplier) * 3
  let effectiveLayerDepth := layerDepth * (4/5 + zone.multiplier * (1/5))
  { baseX := volumeX
    baseY := volumeY
    angle := strandAngle
    length := len
    color := ch.hairStyle.defaultColor
    waveConfig := some ch.hairStyle
    layerDepth := effectiveLayerDepth }

/-- One centre-fill strand of `generateHair`; `draw 0`–`draw 2` are the three
`Math.random()` draws of the loop body in source order. -/
def centerFillStrand (ch : Character) (cosF sinF : ℚ → ℚ) (layerDepth : ℚ)
    (i centerFillStrands : ℕ) (draw : ℕ → ℚ) : Strand :=
  let angle := ((i : ℚ) / (centerFillStrands : ℚ)) * mathPI - mathPI
  let distance := 1 + draw 0 * 4 + (1 - layerDepth) * 2
  let baseX := ch.hairCenterX + cosF angle * distance
  let baseY := ch.hairCenterY + sinF angle * distance
  let strandAngle := angle + (draw 1 - 1/2) * (4/10 + ch.hairStyle.curliness)
  let len := ch.hairStyle.strandLengthMax + (1 - layerDepth) * 5
  let volumeOffset := (draw 2 - 1/2) * ch.hairStyle.volumeVariation * 8
  { baseX := baseX + volumeOffset
    baseY := baseY + volumeOffset * (1/2)
    angle := strandAngle
    length := len
    color := ch.hairStyle.defaultColor
    waveConfig := some ch.hairStyle
    layerDepth := layerDepth }

/-- Embedding of `HairSystem.generateHair(characterType)`.  `hairStrands0`
is `this.hairStrands` on entry; the method's first action is
`this.hairStrands = []`, so the prior contents are discarded before the
volume-zone rings and the centre fill are pushed.  `rngRing zi li ri i` and
`rngCenter li i` supply the `Math.random()` draws of the corresponding loop
iteration. -/
def generateHair (ch : Character) (cosF sinF : ℚ → ℚ)
    (rngRing : ℕ → ℕ → ℕ → ℕ → ℕ → ℚ) (rngCenter : ℕ → ℕ → ℕ → ℚ)
    (_hairStrands0 : List Strand) : List Strand :=
  let hairStrands : List Strand := []
  let layers := layersOf ch
  let ringStrands := volumeZones.enum.flatMap fun zz =>
    layers.enum.flatMap fun ll =>
      (radiusList (ch.hairStyle.generationMaxRadius * zz.2.multiplier)
          ch.hairStyle.generationStep).enum.flatMap fun rr =>
        let n := strandsInCircleCount ch zz.2 ll.2 rr.2
        (List.range n).map fun i =>
          ringStrand ch cosF sinF zz.2 ll.2 rr.2 i n (rngRing zz.1 ll.1 rr.1 i)
  let centerStrands := layers.enum.flatMap fun ll =>
    let cnt := (⌊ch.hairStyle.centerFillStrands * ll.2⌋).toNat
    (List.range cnt).map fun i =>
      centerFillStrand ch cosF sinF ll.2 i cnt (rngCenter ll.1 i)
  hairStrands ++ ringStrands ++ centerStrands

/-! ### PhysicsEngine (src/unnamed/part_000) -/

/-- Falling-hair particle as built by `PhysicsEngine.createFallingHair`. -/
structure Particle where
  x : ℚ
  y : ℚ
  angle : ℚ
  length : ℚ
  color : String
  rotation : ℚ
  rotationSpeed : ℚ
  fallSpeed : ℚ
  horizontalDrift : ℚ
  deriving DecidableEq

/-- Per-tick particle motion: `y += fallSpeed; x += horizontalDrift;
rotation += rotationSpeed`. -/
def stepParticle (hair : Particle) : Particle :=
  { hair with
    y := hair.y + hair.fallSpeed
    x := hair.x + hair.horizontalDrift
    rotation := hair.rotation + hair.rotationSpeed }

/-- Cleanup bound `this.canvas.height + GameConfig.physics.cleanupDistance`. -/
def cleanupBound : ℚ :=
  GameConfig.canvasHeight + GameConfig.cleanupDistance

/-- Embedding of `PhysicsEngine.updateFallingHair()`.  The source iterates
from the last index down to `0`, moving each particle and splicing it out
when `hair.y > canvas.height + cleanupDistance`; each index is handled
independently, so the forward recursion below produces the same list. -/
def updateFallingHair : List Particle → List Particle
  | [] => []
  | hair :: rest =>
    if cleanupBound < (stepParticle hair).y then updateFallingHair rest
    else stepParticle hair :: updateFallingHair rest

/-- Iterated physics ticks. -/
def updateIter (n : ℕ) (fallingHair : List Particle) : List Particle :=
  updateFallingHair^[n] fallingHair

/-- Physics engine state: particle list, `isAnimating` flag and the stored
`requestAnimationFrame` handle (`animationId`). -/
structure PhysicsEngine where
  fallingHair : List Particle
  isAnimating : Bool
  animationId : Option ℕ
  deriving DecidableEq

/-- Embedding of `PhysicsEngine.startAnimation()`: sets the flag (the loop
itself starts later, when the redraw callback is provided). -/
def startAnimation (e : PhysicsEngine) : PhysicsEngine :=
  if !e.isAnimating then { e with isAnimating := true } else e

/-- Embedding of `PhysicsEngine.stopAnimation()`: cancels the scheduled
callback (clearing the stored handle) and clears the flag. -/
def stopAnimation (e : PhysicsEngine) : PhysicsEngine :=
  { e with animationId := none, isAnimating := false }

/-- Embedding of `PhysicsEngine.createFallingHair(hairStrand)`; `rRot`,
`rFall` and `rDrift` are the three `Math.random()` draws in source order. -/
def createFallingHair (e : PhysicsEngine) (hairStrand : Strand)
    (rRot rFall rDrift : ℚ) : PhysicsEngine :=
  let fallingParticle : Particle :=
    { x := hairStrand.baseX
      y := hairStrand.baseY
      angle := hairStrand.angle
      length := hairStrand.length
      color := hairStrand.color
      rotation := hairStrand.angle
      rotationSpeed := randomBetween GameConfig.rotationSpeedMin
        GameConfig.rotationSpeedMax rRot
      fallSpeed := randomBetween GameConfig.fallSpeedMin
        GameConfig.fallSpeedMax rFall
      horizontalDrift := randomBetween GameConfig.horizontalDriftMin
        GameConfig.horizontalDriftMax rDrift }
  let e1 := { e with fallingHair := e.fallingHair ++ [fallingParticle] }
  if !e1.isAnimating then startAnimation e1 else e1

/-- Embedding of one pass of `PhysicsEngine.animationLoop`: when the particle
list is empty it stops the animation and returns without scheduling; otherwise
it updates the particles and stores the handle of the next scheduled frame
(`newId`). -/
def animationLoop (e : PhysicsEngine) (newId : ℕ) : PhysicsEngine :=
  if e.fallingHair.length = 0 then stopAnimation e
  else
    { e with
      fallingHair := updateFallingHair e.fallingHair
      animationId := some newId }

/-- Concrete character profile used to instantiate witness statements.  It
mirrors `GameConfig.characters.male` (the shipped male profile has no
`volumeVariation` or `layerDepths` entries; the witness profile uses `0` and
`none`). -/
def testCharacter : Character :=
  { hairCenterX := 305
    hairCenterY := 220
    hairRadius := 90
    hairStyle :=
      { defaultColor := "#8B4513"
        strandLengthMin := 20
        strandLengthMax := 30
        generationStep := 3
        generationMaxRadius := 70
        strandsPerCircleBase := 16
        strandsPerCircleMultiplier := 5/2
        centerFillStrands := 24
        curliness := 0
        volumeMultiplier := 1
        wavePattern := "straight"
        waveAmplitude := 0
        waveFrequency := 0
        layering := 1
        volumeVariation := 0
        layerDepths := none } }

/-- Concrete strand used to instantiate witness statements. -/
def witnessStrand : Strand :=
  { baseX := 0, baseY := 0, angle := 1, length := 10, color := "#8B4513",
    waveConfig := none, layerDepth := 1 }

/-- Concrete falling particle (base height 646, fall speed 4) at which the
claimed ceiling formula for the removal tick fails. -/
def counterParticle : Particle :=
  { x := 0, y := 646, angle := 0, length := 10, color := "#8B4513",
    rotation := 0, rotationSpeed := 0, fallSpeed := 4, horizontalDrift := 0 }

/-! ### Theorems -/

/-- Squared distance is nonnegative. -/
theorem calculateDistanceSq_nonneg (x1 y1 x2 y2 : ℚ) :
    0 ≤ calculateDistanceSq x1 y1 x2 y2 := by
  unfold calculateDistanceSq
  positivity

/-- Bridge between the squared-distance embedding and the specification's
`Real.sqrt` distance: for `0 ≤ r`, `dist² ≤ r²` iff `√dist² ≤ r`. -/
theorem distWithin_iff_sqrt (x1 y1 x2 y2 r : ℚ) (hr : (0:ℝ) ≤ (r:ℝ)) :
    distWithin x1 y1 x2 y2 r = true ↔
      Real.sqrt (((x2:ℝ) - x1) ^ 2 + ((y2:ℝ) - y1) ^ 2) ≤ (r:ℝ) := by
  rw [Real.sqrt_le_left hr]
  unfold distWithin calculateDistanceSq
  rw [decide_eq_true_iff]
  constructor
  · intro h
    have := (Rat.cast_le (K := ℝ)).mpr h
    push_cast at this ⊢
    linarith
  · intro h
    have : ((x2 - x1) ^ 2 + (y2 - y1) ^ 2 : ℚ) ≤ (r ^ 2 : ℚ) := by
      rw [← Rat.cast_le (K := ℝ)]
      push_cast
      linarith
    exact this

/-- C1: for every point `(x, y)`, `Utils.isInHairZone(x, y)` returns true iff
the Euclidean distance from `(x, y)` to the configured head centre
`(305, 220)` is at most the hair radius `90` and `y ≤ 220`; in particular
`(305, 200)` is inside and `(305, 310)` is outside. -/
theorem isInHairZone_iff_distance :
    (∀ x y : ℚ, isInHairZone x y = true ↔
      (Real.sqrt (((x : ℝ) - 305) ^ 2 + ((y : ℝ) - 220) ^ 2) ≤ 90 ∧ y ≤ 220)) ∧
    isInHairZone 305 200 = true ∧ isInHairZone 305 310 = false := by
  refine ⟨fun x y => ?_, by norm_num [isInHairZone, distWithin, calculateDistanceSq, GameConfig.avatarCenterX, GameConfig.avatarCenterY, GameConfig.avatarHairRadius], by norm_num [isInHairZone, distWithin, calculateDistanceSq, GameConfig.avatarCenterX, GameConfig.avatarCenterY, GameConfig.avatarHairRadius]⟩
  have hb := distWithin_iff_sqrt x y 305 220 90 (by norm_num)
  push_cast at hb
  rw [show ((305:ℝ) - x) ^ 2 + ((220:ℝ) - y) ^ 2
      = ((x:ℝ) - 305) ^ 2 + ((y:ℝ) - 220) ^ 2 from by ring] at hb
  simp only [isInHairZone, GameConfig.avatarCenterX, GameConfig.avatarCenterY,
    GameConfig.avatarHairRadius, Bool.and_eq_true, decide_eq_true_iff]
  rw [hb]

/-- Removal and preservation bookkeeping of a shave: lengths add up and no
surviving strand matches the shave radius test. -/
theorem shave_split (hairStrands : List Strand) (x y : ℚ) :
    (shaveHairAtPosition hairStrands x y).1.length
        + (shaveHairAtPosition hairStrands x y).2.length = hairStrands.length ∧
    ∀ s ∈ (shaveHairAtPosition hairStrands x y).2, shaveMatched x y s = false := by
  induction hairStrands with
  | nil => simp [shaveHairAtPosition]
  | cons s rest ih =>
    obtain ⟨ihlen, ihmem⟩ := ih
    cases hsm : shaveMatched x y s with
    | true =>
      have heq : shaveHairAtPosition (s :: rest) x y
          = ((shaveHairAtPosition rest x y).1 ++ [s],
             (shaveHairAtPosition rest x y).2) := by
        simp [shaveHairAtPosition, hsm]
      rw [heq]
      refine ⟨?_, ihmem⟩
      simp only [List.length_append, List.length_cons, List.length_nil]
      omega
    | false =>
      have heq : shaveHairAtPosition (s :: rest) x y
          = ((shaveHairAtPosition rest x y).1,
             s :: (shaveHairAtPosition rest x y).2) := by
        simp [shaveHairAtPosition, hsm]
      rw [heq]
      constructor
      · simp only [List.length_cons]
        omega
      · intro t ht
        rcases List.mem_cons.mp ht with h | h
        · rw [h]; exact hsm
        · exact ihmem t h

/-- C2: for every store state and shave point, the strand count before minus
after equals the number of removed strands (the lengths add up exactly), and
no strand whose base lies within the shave radius (15) of the point remains
in the store. -/
theorem shaveHairAtPosition_spec (hairStrands : List Strand) (x y : ℚ) :
    hairStrands.length - (shaveHairAtPosition hairStrands x y).2.length
        = (shaveHairAtPosition hairStrands x y).1.length ∧
    (shaveHairAtPosition hairStrands x y).1.length
        + (shaveHairAtPosition hairStrands x y).2.length = hairStrands.length ∧
    ∀ s ∈ (shaveHairAtPosition hairStrands x y).2,
      ¬ Real.sqrt (((s.baseX : ℝ) - x) ^ 2 + ((s.baseY : ℝ) - y) ^ 2) ≤ 15 := by
  obtain ⟨hlen, hmem⟩ := shave_split hairStrands x y
  refine ⟨by omega, hlen, ?_⟩
  intro s hs hle
  have hfalse := hmem s hs
  have hiff := distWithin_iff_sqrt s.baseX s.baseY x y 15 (by norm_num)
  push_cast at hiff
  rw [show ((x:ℝ) - s.baseX) ^ 2 + ((y:ℝ) - s.baseY) ^ 2
      = ((s.baseX:ℝ) - x) ^ 2 + ((s.baseY:ℝ) - y) ^ 2 from by ring] at hiff
  have : shaveMatched x y s = true := hiff.mpr hle
  rw [hfalse] at this
  exact Bool.false_ne_true this

/-- C3: adding hair at a point inside the hair zone returns `true` and grows
the store by exactly `strandsPerClick` (5) strands. -/
theorem addHairAtPosition_inside (hairStrands : List Strand) (x y : ℚ)
    (color : String) (ch : Character) (rng : ℕ → ℚ)
    (h : isInHairZone x y = true) :
    (addHairAtPosition hairStrands x y color ch rng).1 = true ∧
    (addHairAtPosition hairStrands x y color ch rng).2.length
      = hairStrands.length + GameConfig.addHairStrandsPerClick := by
  simp [addHairAtPosition, h]

/-- Witness for C3 at the in-zone point `(305, 200)`. -/
theorem addHairAtPosition_inside_witness :
    isInHairZone 305 200 = true ∧
    ((addHairAtPosition [] 305 200 "#8B4513" testCharacter (fun _ => 0)).1 = true ∧
     (addHairAtPosition [] 305 200 "#8B4513" testCharacter (fun _ => 0)).2.length
       = ([] : List Strand).length + GameConfig.addHairStrandsPerClick) :=
  ⟨by norm_num [isInHairZone, distWithin, calculateDistanceSq, GameConfig.avatarCenterX, GameConfig.avatarCenterY, GameConfig.avatarHairRadius],
   addHairAtPosition_inside [] 305 200 "#8B4513" testCharacter (fun _ => 0)
     (by norm_num [isInHairZone, distWithin, calculateDistanceSq, GameConfig.avatarCenterX, GameConfig.avatarCenterY, GameConfig.avatarHairRadius])⟩

/-- C4: adding hair at a point outside the hair zone returns `false` and
leaves the store completely unchanged. -/
theorem addHairAtPosition_outside (hairStrands : List Strand) (x y : ℚ)
    (color : String) (ch : Character) (rng : ℕ → ℚ)
    (h : isInHairZone x y = false) :
    addHairAtPosition hairStrands x y color ch rng = (false, hairStrands) := by
  simp [addHairAtPosition, h]

/-- Witness for C4 at the out-of-zone point `(305, 310)`. -/
theorem addHairAtPosition_outside_witness :
    isInHairZone 305 310 = false ∧
    addHairAtPosition [] 305 310 "#8B4513" testCharacter (fun _ => 0)
      = (false, ([] : List Strand)) :=
  ⟨by norm_num [isInHairZone, distWithin, calculateDistanceSq, GameConfig.avatarCenterX, GameConfig.avatarCenterY, GameConfig.avatarHairRadius],
   addHairAtPosition_outside [] 305 310 "#8B4513" testCharacter (fun _ => 0)
     (by norm_num [isInHairZone, distWithin, calculateDistanceSq, GameConfig.avatarCenterX, GameConfig.avatarCenterY, GameConfig.avatarHairRadius])⟩

/-- Pointwise effect of repeated combing: a strand whose base lies in the
comb radius keeps its base and has its angle nudged by `nudgeIter`. -/
theorem combIter_getElem (atan2 : ℚ → ℚ → ℚ) (x y dx dy : ℚ)
    (hairStrands : List Strand) (i : ℕ) (s : Strand)
    (hget : hairStrands[i]? = some s)
    (hin : distWithin s.baseX s.baseY x y GameConfig.combEffectRadius = true) :
    ∀ n : ℕ, (combIter atan2 x y dx dy n hairStrands)[i]?
      = some { s with angle := nudgeIter (atan2 dy dx) n s.angle } := by
  intro n
  induction n with
  | zero => simp [combIter, nudgeIter, hget]
  | succ n ihn =>
    have hstep : combIter atan2 x y dx dy (n + 1) hairStrands
        = combHairAtPosition atan2 (combIter atan2 x y dx dy n hairStrands)
            x y dx dy := by
      unfold combIter
      exact Function.iterate_succ_apply' _ n hairStrands
    rw [hstep]
    unfold combHairAtPosition
    rw [List.getElem?_map, ihn]
    simp only [Option.map_some']
    rw [if_pos hin]
    simp [combStrandUpdate, nudgeIter, Function.iterate_succ_apply']

/-- One nudge with influence `3/10` strictly shrinks the gap to the target
and never closes it exactly. -/
theorem nudge_strict (t a : ℚ) (hne : a ≠ t) :
    |a + (t - a) * GameConfig.combInfluence - t| < |a - t| ∧
    a + (t - a) * GameConfig.combInfluence ≠ t := by
  have h7 : a + (t - a) * GameConfig.combInfluence - t = (a - t) * (7/10) := by
    unfold GameConfig.combInfluence
    ring
  have hne0 : a - t ≠ 0 := sub_ne_zero.mpr hne
  have hpos : 0 < |a - t| := abs_pos.mpr hne0
  constructor
  · rw [h7, abs_mul, show |(7/10 : ℚ)| = 7/10 from by norm_num]
    nlinarith
  · intro h
    apply hne0
    have hz : a + (t - a) * GameConfig.combInfluence - t = 0 := by
      rw [h]
      ring
    rw [h7] at hz
    rcases mul_eq_zero.mp hz with h0 | h0
    · exact h0
    · norm_num at h0

/-- Iterated nudging never reaches the target exactly. -/
theorem nudgeIter_ne (t a : ℚ) (hne : a ≠ t) :
    ∀ n : ℕ, nudgeIter t n a ≠ t := by
  intro n
  induction n with
  | zero => simpa [nudgeIter] using hne
  | succ n ihn =>
    have hstep : nudgeIter t (n + 1) a
        = nudgeIter t n a + (t - nudgeIter t n a) * GameConfig.combInfluence := by
      unfold nudgeIter
      exact Function.iterate_succ_apply' _ n a
    rw [hstep]
    exact (nudge_strict t (nudgeIter t n a) ihn).2

/-- C5: for every strand within the comb radius and a fixed comb direction,
each further comb call (angle += (target − angle) × influence, influence =
0.3 ∈ (0,1)) strictly decreases the distance of the strand's angle to the
target, and the angle never becomes exactly the target after finitely many
calls (given it does not start there). -/
theorem combHairAtPosition_convergence (atan2 : ℚ → ℚ → ℚ)
    (hairStrands : List Strand) (x y dx dy : ℚ) (i : ℕ) (s : Strand)
    (hget : hairStrands[i]? = some s)
    (hin : distWithin s.baseX s.baseY x y GameConfig.combEffectRadius = true)
    (hne : s.angle ≠ atan2 dy dx) (n : ℕ) :
    ∃ sn sn1 : Strand,
      (combIter atan2 x y dx dy n hairStrands)[i]? = some sn ∧
      (combIter atan2 x y dx dy (n + 1) hairStrands)[i]? = some sn1 ∧
      |sn1.angle - atan2 dy dx| < |sn.angle - atan2 dy dx| ∧
      sn.angle ≠ atan2 dy dx := by
  refine ⟨_, _, combIter_getElem atan2 x y dx dy hairStrands i s hget hin n,
    combIter_getElem atan2 x y dx dy hairStrands i s hget hin (n + 1), ?_, ?_⟩
  · show |nudgeIter (atan2 dy dx) (n + 1) s.angle - atan2 dy dx|
      < |nudgeIter (atan2 dy dx) n s.angle - atan2 dy dx|
    have hstep : nudgeIter (atan2 dy dx) (n + 1) s.angle
        = nudgeIter (atan2 dy dx) n s.angle
          + (atan2 dy dx - nudgeIter (atan2 dy dx) n s.angle)
            * GameConfig.combInfluence := by
      unfold nudgeIter
      exact Function.iterate_succ_apply' _ n s.angle
    rw [hstep]
    exact (nudge_strict (atan2 dy dx) (nudgeIter (atan2 dy dx) n s.angle)
      (nudgeIter_ne (atan2 dy dx) s.angle hne n)).1
  · show nudgeIter (atan2 dy dx) n s.angle ≠ atan2 dy dx
    exact nudgeIter_ne (atan2 dy dx) s.angle hne n

/-- C5 counterexample: a strand inside the comb radius whose angle already
equals the target angle is left unchanged by the comb call, so
`|angle − targetAngle|` does not strictly decrease on that call. -/
theorem comb_no_strict_decrease_at_target :
    (distWithin (⟨0, 0, 0, 10, "#8B4513", none, 1⟩ : Strand).baseX
      (⟨0, 0, 0, 10, "#8B4513", none, 1⟩ : Strand).baseY 0 0
      GameConfig.combEffectRadius = true) ∧
    combHairAtPosition (fun _ _ => 0) [⟨0, 0, 0, 10, "#8B4513", none, 1⟩] 0 0 1 1
      = [⟨0, 0, 0, 10, "#8B4513", none, 1⟩] ∧
    ¬ |(⟨0, 0, 0, 10, "#8B4513", none, 1⟩ : Strand).angle - (fun _ _ : ℚ => 0) 1 1|
        < |(⟨0, 0, 0, 10, "#8B4513", none, 1⟩ : Strand).angle - (fun _ _ : ℚ => 0) 1 1| := by
  refine ⟨?_, ?_, ?_⟩
  · norm_num [distWithin, calculateDistanceSq, GameConfig.combEffectRadius]
  · have hin : distWithin (0:ℚ) (0:ℚ) 0 0 GameConfig.combEffectRadius = true := by
      norm_num [distWithin, calculateDistanceSq, GameConfig.combEffectRadius]
    unfold combHairAtPosition
    rw [List.map_cons, List.map_nil, if_pos hin]
    unfold combStrandUpdate
    norm_num
  · exact lt_irrefl _

/-- Witness for C5 (amended): a single strand at the comb point, target angle
`0`, initial angle `1`, first call (`n = 0`). -/
theorem combHairAtPosition_convergence_witness :
    ([witnessStrand][0]? = some witnessStrand) ∧
    (distWithin witnessStrand.baseX witnessStrand.baseY 0 0
      GameConfig.combEffectRadius = true) ∧
    (witnessStrand.angle ≠ (fun _ _ : ℚ => 0) 1 1) ∧
    ∃ sn sn1 : Strand,
      (combIter (fun _ _ => 0) 0 0 1 1 0 [witnessStrand])[0]? = some sn ∧
      (combIter (fun _ _ => 0) 0 0 1 1 1 [witnessStrand])[0]? = some sn1 ∧
      |sn1.angle - (fun _ _ : ℚ => 0) 1 1| < |sn.angle - (fun _ _ : ℚ => 0) 1 1| ∧
      sn.angle ≠ (fun _ _ : ℚ => 0) 1 1 :=
  ⟨rfl,
   by norm_num [distWithin, calculateDistanceSq, witnessStrand,
     GameConfig.combEffectRadius],
   by norm_num [witnessStrand],
   combHairAtPosition_convergence (fun _ _ => 0) [witnessStrand] 0 0 1 1 0
     witnessStrand rfl
     (by norm_num [distWithin, calculateDistanceSq, witnessStrand,
       GameConfig.combEffectRadius])
     (by norm_num [witnessStrand]) 0⟩

/-- Ticks fix the empty particle list. -/
theorem updateIter_nil (n : ℕ) : updateIter n ([] : List Particle) = [] := by
  unfold updateIter
  exact Function.iterate_fixed rfl n

/-- Evolution of a single particle with fall speed 4: after `m + 1` ticks it
is still present iff its height has not yet crossed the cleanup bound. -/
theorem updateIter_singleton (p : Particle) (h4 : p.fallSpeed = 4) (m : ℕ) :
    (updateIter (m + 1) [p]).length
      = if p.y + 4 * ((m : ℚ) + 1) ≤ cleanupBound then 1 else 0 := by
  induction m generalizing p with
  | zero =>
    have h1 : updateIter 1 [p] = updateFallingHair [p] := by
      simp [updateIter]
    rw [h1]
    unfold updateFallingHair stepParticle
    rw [h4]
    by_cases h : cleanupBound < p.y + 4
    · rw [if_pos h, if_neg (by push_cast; linarith)]
      rfl
    · rw [if_neg h, if_pos (by push_cast; linarith [not_lt.mp h])]
      rfl
  | succ m ihm =>
    have hstep : updateIter (m + 1 + 1) [p]
        = updateIter (m + 1) (updateFallingHair [p]) := by
      unfold updateIter
      exact Function.iterate_succ_apply _ (m + 1) [p]
    rw [hstep]
    by_cases h : cleanupBound < p.y + 4
    · have hupd : updateFallingHair [p] = [] := by
        unfold updateFallingHair stepParticle
        rw [h4, if_pos h]
        rfl
      rw [hupd, updateIter_nil]
      rw [if_neg (by push_cast; nlinarith [Nat.cast_nonneg (α := ℚ) m])]
      rfl
    · have hupd : updateFallingHair [p] = [stepParticle p] := by
        unfold updateFallingHair
        rw [if_neg (by unfold stepParticle; rw [h4]; exact h)]
        unfold updateFallingHair
        rfl
      rw [hupd, ihm (stepParticle p) (by unfold stepParticle; rw [h4])]
      have hy : (stepParticle p).y = p.y + 4 := by
        unfold stepParticle
        rw [h4]
      rw [hy]
      have harg : p.y + 4 * (((m + 1 : ℕ) : ℚ) + 1)
          = p.y + 4 + 4 * ((m : ℚ) + 1) := by
        push_cast
        ring
      rw [harg]

/-- C6 counterexample: for a particle created at `y0 = 646` with fall speed
4, the claimed removal tick `⌈(canvasHeight + cleanupDistance − y0)/4⌉ = 1`
has passed yet the particle is still in the list (removal needs strict
`y > 650`, and `646 + 4 = 650`); it is actually removed at tick 2. -/
theorem particle_cleanup_ceil_counterexample :
    Int.ceil ((GameConfig.canvasHeight + GameConfig.cleanupDistance
        - counterParticle.y) / 4) = 1 ∧
    counterParticle.fallSpeed = 4 ∧
    (updateIter 1 [counterParticle]).length = 1 ∧
    (updateIter 2 [counterParticle]).length = 0 := by
  refine ⟨?_, rfl, ?_, ?_⟩
  · rw [show (GameConfig.canvasHeight + GameConfig.cleanupDistance
        - counterParticle.y) / 4 = (1 : ℚ) from by
      norm_num [GameConfig.canvasHeight, GameConfig.cleanupDistance,
        counterParticle]]
    exact Int.ceil_one
  · rw [updateIter_singleton counterParticle rfl 0]
    rw [if_pos (by norm_num [counterParticle, cleanupBound,
      GameConfig.canvasHeight, GameConfig.cleanupDistance])]
  · rw [updateIter_singleton counterParticle rfl 1]
    rw [if_neg (by norm_num [counterParticle, cleanupBound,
      GameConfig.canvasHeight, GameConfig.cleanupDistance])]

/-- C6 (amended): a particle created at height `y0 ≤ canvasHeight +
cleanupDistance` with fall speed 4 is removed from the active list after
exactly `⌊(canvasHeight + cleanupDistance − y0)/4⌋ + 1` ticks — the first
tick at which `y` strictly exceeds the bound — and the list length drops
from 1 to 0 at that tick.  (The spec's `⌈…⌉` count agrees except when
`canvasHeight + cleanupDistance − y0` is an exact multiple of 4.) -/
theorem particle_cleanup_ticks (p : Particle) (h4 : p.fallSpeed = 4)
    (hy : p.y ≤ cleanupBound) :
    (updateIter ((⌊(cleanupBound - p.y) / 4⌋).toNat + 1) [p]).length = 0 ∧
    ∀ m < (⌊(cleanupBound - p.y) / 4⌋).toNat + 1,
      (updateIter m [p]).length = 1 := by
  have hK0 : (0 : ℤ) ≤ ⌊(cleanupBound - p.y) / 4⌋ := by
    apply Int.floor_nonneg.mpr
    have : (0 : ℚ) ≤ cleanupBound - p.y := by linarith
    positivity
  have hcast : ((⌊(cleanupBound - p.y) / 4⌋.toNat : ℕ) : ℚ)
      = ((⌊(cleanupBound - p.y) / 4⌋ : ℤ) : ℚ) := by
    exact_mod_cast congrArg (fun z : ℤ => (z : ℚ)) (Int.toNat_of_nonneg hK0)
  constructor
  · rw [updateIter_singleton p h4 _]
    have hbound : ¬ p.y + 4 * ((⌊(cleanupBound - p.y) / 4⌋.toNat : ℚ) + 1)
        ≤ cleanupBound := by
      rw [hcast]
      have hlt := Int.lt_floor_add_one ((cleanupBound - p.y) / 4)
      intro hle
      have h1 : cleanupBound - p.y
          < 4 * (((⌊(cleanupBound - p.y) / 4⌋ : ℤ) : ℚ) + 1) := by linarith
      linarith
    rw [if_neg hbound]
  · intro m hm
    match m with
    | 0 =>
      unfold updateIter
      rfl
    | m + 1 =>
      rw [updateIter_singleton p h4 m]
      have hmN : m + 1 ≤ ⌊(cleanupBound - p.y) / 4⌋.toNat := by omega
      have hmQ : ((m : ℚ) + 1) ≤ ((⌊(cleanupBound - p.y) / 4⌋ : ℤ) : ℚ) := by
        have hle : ((m + 1 : ℕ) : ℤ) ≤ (⌊(cleanupBound - p.y) / 4⌋.toNat : ℤ) := by
          exact_mod_cast hmN
        rw [Int.toNat_of_nonneg hK0] at hle
        exact_mod_cast hle
      have hfloor := Int.floor_le ((cleanupBound - p.y) / 4)
      rw [if_pos (by linarith)]

/-- Witness for C6 (amended) at a particle of height 645 and fall speed 4:
the removal tick is `⌊5/4⌋ + 1 = 2`. -/
theorem particle_cleanup_ticks_witness :
    (⟨0, 645, 0, 10, "#8B4513", 0, 0, 4, 0⟩ : Particle).fallSpeed = 4 ∧
    (⟨0, 645, 0, 10, "#8B4513", 0, 0, 4, 0⟩ : Particle).y ≤ cleanupBound ∧
    ((updateIter
        ((⌊(cleanupBound
            - (⟨0, 645, 0, 10, "#8B4513", 0, 0, 4, 0⟩ : Particle).y) / 4⌋).toNat + 1)
        [⟨0, 645, 0, 10, "#8B4513", 0, 0, 4, 0⟩]).length = 0 ∧
      ∀ m < (⌊(cleanupBound
          - (⟨0, 645, 0, 10, "#8B4513", 0, 0, 4, 0⟩ : Particle).y) / 4⌋).toNat + 1,
        (updateIter m [⟨0, 645, 0, 10, "#8B4513", 0, 0, 4, 0⟩]).length = 1) :=
  ⟨rfl,
   by norm_num [cleanupBound, GameConfig.canvasHeight, GameConfig.cleanupDistance],
   particle_cleanup_ticks ⟨0, 645, 0, 10, "#8B4513", 0, 0, 4, 0⟩ rfl
     (by norm_num [cleanupBound, GameConfig.canvasHeight,
       GameConfig.cleanupDistance])⟩

/-- C7: the draw-call sequence produced by `redrawAllHair` is a permutation
of the store (every strand drawn exactly once) and is non-decreasing in
`layerDepth`, provided every stored depth is positive (a depth of exactly `0`
would be replaced by `1.0` by the JS `||` default). -/
theorem redrawAllHair_sorted (hairStrands : List Strand)
    (h : ∀ s ∈ hairStrands, 0 < s.layerDepth) :
    (redrawAllHair hairStrands).Perm hairStrands ∧
    (redrawAllHair hairStrands).Pairwise fun a b => a.layerDepth ≤ b.layerDepth := by
  constructor
  · exact List.mergeSort_perm hairStrands _
  · have hs : (redrawAllHair hairStrands).Pairwise fun a b =>
        (decide (layerDepthOrDefault a.layerDepth
          ≤ layerDepthOrDefault b.layerDepth)) = true := by
      apply List.sorted_mergeSort
      · intro a b c hab hbc
        simp only [decide_eq_true_iff] at *
        exact le_trans hab hbc
      · intro a b
        rcases le_total (layerDepthOrDefault a.layerDepth)
          (layerDepthOrDefault b.layerDepth) with hh | hh <;> simp [hh]
    refine hs.imp_of_mem ?_
    intro a b ha hb hab
    have ha0 : 0 < a.layerDepth := h a (List.mem_mergeSort.mp ha)
    have hb0 : 0 < b.layerDepth := h b (List.mem_mergeSort.mp hb)
    simp only [decide_eq_true_iff, layerDepthOrDefault,
      if_neg (ne_of_gt ha0), if_neg (ne_of_gt hb0)] at hab
    exact hab

/-- Witness for C7 on a two-strand store with depths `1` and `1/2`. -/
theorem redrawAllHair_sorted_witness :
    (∀ s ∈ ([⟨0, 0, 0, 10, "#8B4513", none, 1⟩,
        ⟨1, 1, 0, 10, "#8B4513", none, 1/2⟩] : List Strand), 0 < s.layerDepth) ∧
    ((redrawAllHair [⟨0, 0, 0, 10, "#8B4513", none, 1⟩,
        ⟨1, 1, 0, 10, "#8B4513", none, 1/2⟩]).Perm
      [⟨0, 0, 0, 10, "#8B4513", none, 1⟩,
        ⟨1, 1, 0, 10, "#8B4513", none, 1/2⟩] ∧
     (redrawAllHair [⟨0, 0, 0, 10, "#8B4513", none, 1⟩,
        ⟨1, 1, 0, 10, "#8B4513", none, 1/2⟩]).Pairwise
      fun a b => a.layerDepth ≤ b.layerDepth) :=
  ⟨by norm_num [List.forall_mem_cons],
   redrawAllHair_sorted _ (by norm_num [List.forall_mem_cons])⟩

/-- C8: after a physics update pass every surviving particle satisfies
`y ≤ canvasHeight + cleanupDistance`, and the pass is exactly "move every
particle, then drop those beyond the bound" (so any particle exceeding the
bound is removed in the same pass). -/
theorem updateFallingHair_invariant (fallingHair : List Particle) :
    (∀ p ∈ updateFallingHair fallingHair, p.y ≤ cleanupBound) ∧
    updateFallingHair fallingHair
      = (fallingHair.map stepParticle).filter fun hair =>
          !decide (cleanupBound < hair.y) := by
  induction fallingHair with
  | nil => simp [updateFallingHair]
  | cons hair rest ih =>
    obtain ⟨ihmem, iheq⟩ := ih
    by_cases h : cleanupBound < (stepParticle hair).y
    · have heq : updateFallingHair (hair :: rest) = updateFallingHair rest := by
        rw [updateFallingHair, if_pos h]
      constructor
      · intro p hp
        rw [heq] at hp
        exact ihmem p hp
      · rw [heq, iheq]
        simp [h]
    · have heq : updateFallingHair (hair :: rest)
          = stepParticle hair :: updateFallingHair rest := by
        rw [updateFallingHair, if_neg h]
      constructor
      · intro p hp
        rw [heq] at hp
        rcases List.mem_cons.mp hp with h1 | h1
        · rw [h1]
          exact not_lt.mp h
        · exact ihmem p h1
      · rw [heq, iheq]
        simp [h]

/-- C9: the stepper's state machine — creating a particle on an idle engine
switches it to running; a loop pass that finds the particle list empty
switches the engine to idle, cancels the stored frame handle and schedules no
further tick. -/
theorem physics_state_machine (e : PhysicsEngine) (hairStrand : Strand)
    (rRot rFall rDrift : ℚ) (newId : ℕ) :
    (e.isAnimating = false →
      (createFallingHair e hairStrand rRot rFall rDrift).isAnimating = true) ∧
    (e.fallingHair = [] →
      (animationLoop e newId).isAnimating = false ∧
      (animationLoop e newId).animationId = none) := by
  constructor
  · intro h
    simp [createFallingHair, startAnimation, h]
  · intro h
    simp [animationLoop, stopAnimation, h]

/-- Witness for C9 on the empty idle engine. -/
theorem physics_state_machine_witness :
    ((createFallingHair ⟨[], false, none⟩ witnessStrand 0 0 0).isAnimating
      = true) ∧
    ((animationLoop ⟨[], false, none⟩ 7).isAnimating = false ∧
     (animationLoop ⟨[], false, none⟩ 7).animationId = none) :=
  ⟨(physics_state_machine ⟨[], false, none⟩ witnessStrand 0 0 0 7).1 rfl,
   (physics_state_machine ⟨[], false, none⟩ witnessStrand 0 0 0 7).2 rfl⟩

/-- C10: `generateHair` clears the strand list before populating it, so its
result (count and contents) is independent of the prior store state, and
regenerating on top of a generated store does not accumulate strands. -/
theorem generateHair_independent_of_prior (ch : Character) (cosF sinF : ℚ → ℚ)
    (rngRing : ℕ → ℕ → ℕ → ℕ → ℕ → ℚ) (rngCenter : ℕ → ℕ → ℕ → ℚ)
    (prior1 prior2 : List Strand) :
    generateHair ch cosF sinF rngRing rngCenter prior1
      = generateHair ch cosF sinF rngRing rngCenter prior2 ∧
    generateHair ch cosF sinF rngRing rngCenter
        (generateHair ch cosF sinF rngRing rngCenter prior1)
      = generateHair ch cosF sinF rngRing rngCenter prior1 :=
  ⟨rfl, rfl⟩

end HairSalon
